import Mathlib

/-!
Verification of the hand-drawn graph library core
(`src/handDrawnUtils.js`, `src/scribbleFills.js`).

The JavaScript source is embedded shallowly:

* machine numbers become `ℚ` (the source only adds, multiplies, divides,
  compares, floors and rounds, all exact on the inputs considered);
* every call of `Math.random()` is a value drawn from an explicit stream
  `u : ℕ → ℚ` whose values are assumed to lie in `[0, 1)`;
* host facilities (CSS color resolution, `getTotalLength` /
  `getPointAtLength` on a rendered path, trigonometric functions) enter as
  explicit parameters, since the core delegates them to the browser;
* the d3 `curveBasis` / `curveBasisClosed` emission of control points is
  embedded from d3-shape's basis curve.
-/

namespace HandwrittenGraph

/-! ## ColorAdjuster (`adjustColor` in `scribbleFills.js`) -/

/-- `Math.max(0, Math.min(1, x))`, the clamp used at lines 504-505 of
`scribbleFills.js`. -/
def clamp01 (x : ℚ) : ℚ := max 0 (min 1 x)

/-- JavaScript `Math.round`: round half up, `⌊x + 1/2⌋`. -/
def jsRound (x : ℚ) : ℤ := ⌊x + 1/2⌋

/-- The `hue2rgb` helper of `adjustColor` (lines 513-520): shift `t` into
`[0,1]` then evaluate the piecewise hue ramp. -/
def hue2rgb (p q t0 : ℚ) : ℚ :=
  let t1 := if t0 < 0 then t0 + 1 else t0
  let t2 := if t1 > 1 then t1 - 1 else t1
  if t2 < 1/6 then p + (q - p) * 6 * t2
  else if t2 < 1/2 then q
  else if t2 < 2/3 then p + (q - p) * (2/3 - t2) * 6
  else p

/-- RGB→HSL conversion of `adjustColor` (lines 479-501), on channels already
scaled to `[0,1]`.  The JavaScript `switch (max)` tries `case r` before
`case g` before `case b`, which the nested `if` mirrors. -/
def rgbToHsl (r g b : ℚ) : ℚ × ℚ × ℚ :=
  let M := max r (max g b)
  let m := min r (min g b)
  let l := (M + m) / 2
  if M = m then (0, 0, l)
  else
    let d := M - m
    let s := if l > 1/2 then d / (2 - M - m) else d / (M + m)
    let h :=
      (if M = r then (g - b) / d + (if g < b then 6 else 0)
       else if M = g then (b - r) / d + 2
       else (r - g) / d + 4) / 6
    (h, s, l)

/-- HSL→RGB conversion of `adjustColor` (lines 508-528). -/
def hslToRgb (h s l : ℚ) : ℚ × ℚ × ℚ :=
  if s = 0 then (l, l, l)
  else
    let q := if l < 1/2 then l * (1 + s) else l + s - l * s
    let p := 2 * l - q
    (hue2rgb p q (h + 1/3), hue2rgb p q h, hue2rgb p q (h - 1/3))

/-- The saturation/lightness adjustment step of `adjustColor`
(lines 503-505): `s := clamp01 (s + saturationDelta)`,
`l := clamp01 (l + brightnessDelta / 100)`. -/
def adjustHsl (s l brightnessDelta saturationDelta : ℚ) : ℚ × ℚ :=
  (clamp01 (s + saturationDelta), clamp01 (l + brightnessDelta / 100))

/-- `adjustColor` on already-parsed integer RGB channels (lines 474-535):
scale to `[0,1]`, convert to HSL, clamp-adjust, convert back, rescale and
round each channel. -/
def adjustColorRgb (r g b : ℕ) (brightnessDelta saturationDelta : ℚ) :
    ℤ × ℤ × ℤ :=
  let hsl := rgbToHsl ((r : ℚ) / 255) ((g : ℚ) / 255) ((b : ℚ) / 255)
  let sl := adjustHsl hsl.2.1 hsl.2.2 brightnessDelta saturationDelta
  let rgb1 := hslToRgb hsl.1 sl.1 sl.2
  (jsRound (rgb1.1 * 255), jsRound (rgb1.2.1 * 255), jsRound (rgb1.2.2 * 255))

/-- Full `adjustColor` (lines 457-536).  The browser's color resolution
(temporary element, `getComputedStyle`, regex match on `rgb(r, g, b)`) is the
parameter `resolve`; when it fails the original color string is returned
unchanged (lines 469-472). -/
def adjustColor (resolve : String → Option (ℕ × ℕ × ℕ)) (color : String)
    (brightnessDelta saturationDelta : ℚ) : String :=
  match resolve color with
  | none => color
  | some (r, g, b) =>
    let t := adjustColorRgb r g b brightnessDelta saturationDelta
    "rgb(" ++ toString t.1 ++ ", " ++ toString t.2.1 ++ ", " ++
      toString t.2.2 ++ ")"

lemma clamp01_nonneg (x : ℚ) : 0 ≤ clamp01 x := le_max_left 0 _

lemma clamp01_le_one (x : ℚ) : clamp01 x ≤ 1 :=
  max_le (by norm_num) (min_le_left 1 x)

lemma clamp01_of_mem (x : ℚ) (h0 : 0 ≤ x) (h1 : x ≤ 1) : clamp01 x = x := by
  unfold clamp01
  rw [min_eq_right h1, max_eq_right h0]

lemma hue2rgb_seg1 (p q t : ℚ) (h0 : 0 ≤ t) (ht : t < 1/6) :
    hue2rgb p q t = p + (q - p) * 6 * t := by
  unfold hue2rgb
  dsimp only
  rw [if_neg (not_lt.mpr h0), if_neg (not_lt.mpr (by linarith : t ≤ 1)),
    if_pos ht]

lemma hue2rgb_seg2 (p q t : ℚ) (h0 : 1/6 ≤ t) (ht : t < 1/2) :
    hue2rgb p q t = q := by
  unfold hue2rgb
  dsimp only
  rw [if_neg (not_lt.mpr (by linarith : (0:ℚ) ≤ t)),
    if_neg (not_lt.mpr (by linarith : t ≤ 1)),
    if_neg (not_lt.mpr h0), if_pos ht]

lemma hue2rgb_seg3 (p q t : ℚ) (h0 : 1/2 ≤ t) (ht : t < 2/3) :
    hue2rgb p q t = p + (q - p) * (2/3 - t) * 6 := by
  unfold hue2rgb
  dsimp only
  rw [if_neg (not_lt.mpr (by linarith : (0:ℚ) ≤ t)),
    if_neg (not_lt.mpr (by linarith : t ≤ 1)),
    if_neg (not_lt.mpr (by linarith : 1/6 ≤ t)),
    if_neg (not_lt.mpr h0), if_pos ht]

lemma hue2rgb_seg4 (p q t : ℚ) (h0 : 2/3 ≤ t) (ht : t ≤ 1) :
    hue2rgb p q t = p := by
  unfold hue2rgb
  dsimp only
  rw [if_neg (not_lt.mpr (by linarith : (0:ℚ) ≤ t)), if_neg (not_lt.mpr ht),
    if_neg (not_lt.mpr (by linarith : 1/6 ≤ t)),
    if_neg (not_lt.mpr (by linarith : 1/2 ≤ t)), if_neg (not_lt.mpr h0)]

lemma hue2rgb_wrap_neg (p q t : ℚ) (h1 : -1 ≤ t) (h : t < 0) :
    hue2rgb p q t = hue2rgb p q (t + 1) := by
  unfold hue2rgb
  dsimp only
  rw [if_pos h, if_neg (not_lt.mpr (by linarith : t + 1 ≤ 1)),
    if_neg (not_lt.mpr (by linarith : (0:ℚ) ≤ t + 1)),
    if_neg (not_lt.mpr (by linarith : t + 1 ≤ 1))]

lemma hue2rgb_wrap_pos (p q t : ℚ) (h : 1 < t) (h1 : t ≤ 2) :
    hue2rgb p q t = hue2rgb p q (t - 1) := by
  unfold hue2rgb
  dsimp only
  rw [if_neg (not_lt.mpr (by linarith : (0:ℚ) ≤ t)), if_pos h,
    if_neg (not_lt.mpr (by linarith : (0:ℚ) ≤ t - 1)),
    if_neg (not_lt.mpr (by linarith : t - 1 ≤ 1))]

/-- In the chromatic case, `hslToRgb` applied to the saturation and lightness
computed by `rgbToHsl` from extrema `M > m` recovers `q = M` and `p = m`, so
each channel is `hue2rgb m M` of the shifted hue. -/
lemma hslToRgb_chromatic (h M m : ℚ) (hm0 : 0 ≤ m) (hmM : m < M)
    (hM1 : M ≤ 1) :
    hslToRgb h
      (if (M + m)/2 > 1/2 then (M - m)/(2 - M - m) else (M - m)/(M + m))
      ((M + m)/2)
      = (hue2rgb m M (h + 1/3), hue2rgb m M h, hue2rgb m M (h - 1/3)) := by
  have hM0 : 0 < M := lt_of_le_of_lt hm0 hmM
  have hm1 : m < 1 := lt_of_lt_of_le hmM hM1
  have hMmpos : 0 < M + m := by linarith
  have hMm2 : M + m < 2 := by linarith
  set s := if (M + m)/2 > 1/2 then (M - m)/(2 - M - m) else (M - m)/(M + m)
    with hs
  have hspos : 0 < s := by
    rw [hs]
    split_ifs with hcond
    · exact div_pos (by linarith) (by linarith)
    · exact div_pos (by linarith) hMmpos
  have hq : (if (M + m)/2 < 1/2 then (M + m)/2 * (1 + s)
      else (M + m)/2 + s - (M + m)/2 * s) = M := by
    rw [hs]
    rcases lt_trichotomy ((M + m)/2) (1/2) with hlt | heq | hgt
    · rw [if_neg (not_lt.mpr (le_of_lt hlt)), if_pos hlt]
      field_simp
      ring
    · rw [if_neg (not_lt.mpr (le_of_eq heq.symm)),
        if_neg (not_lt.mpr (le_of_eq heq))]
      have hm2 : m = 1 - M := by linarith
      subst hm2
      have hne : M + (1 - M) ≠ 0 := by norm_num
      field_simp
      ring
    · rw [if_pos hgt, if_neg (not_lt.mpr (le_of_lt hgt))]
      have hne : 2 - M - m ≠ 0 := (by linarith : (0:ℚ) < 2 - M - m).ne.symm
      field_simp
      ring
  simp only [hslToRgb]
  rw [if_neg hspos.ne.symm, hq]
  have hp : 2 * ((M + m)/2) - M = m := by ring
  rw [hp]

/-- Hue recovery, case max `= r`, `g ≥ b` (so min `= b`): the hue sector
`(g-b)/d/6` sends `hue2rgb` back to the original channels. -/
lemma hue_caseR1 (r g b : ℚ) (hbg : b ≤ g) (hgr : g ≤ r) (hbr : b < r) :
    hue2rgb b r ((g - b)/(r - b)/6 + 1/3) = r ∧
    hue2rgb b r ((g - b)/(r - b)/6) = g ∧
    hue2rgb b r ((g - b)/(r - b)/6 - 1/3) = b := by
  have hd : 0 < r - b := by linarith
  set t := (g - b)/(r - b)/6 with htdef
  have ht0 : 0 ≤ t := by
    rw [htdef]
    have : 0 ≤ (g - b)/(r - b) := div_nonneg (by linarith) hd.le
    linarith
  rcases eq_or_lt_of_le hgr with hgr2 | hgr2
  · have ht : t = 1/6 := by rw [htdef, hgr2, div_self hd.ne.symm]
    rw [ht]
    refine ⟨?_, ?_, ?_⟩
    · rw [hue2rgb_seg3 b r (1/6 + 1/3) (by norm_num) (by norm_num)]
      linarith
    · rw [hue2rgb_seg2 b r (1/6) (le_refl _) (by norm_num)]
      exact hgr2.symm
    · rw [hue2rgb_wrap_neg b r (1/6 - 1/3) (by norm_num) (by norm_num),
        hue2rgb_seg4 b r (1/6 - 1/3 + 1) (by norm_num) (by norm_num)]
  · have htlt : t < 1/6 := by
      rw [htdef]
      have : (g - b)/(r - b) < 1 := (div_lt_one hd).mpr (by linarith)
      linarith
    refine ⟨?_, ?_, ?_⟩
    · rw [hue2rgb_seg2 b r (t + 1/3) (by linarith) (by linarith)]
    · rw [hue2rgb_seg1 b r t ht0 htlt, htdef]
      field_simp
    · rw [hue2rgb_wrap_neg b r (t - 1/3) (by linarith) (by linarith),
        hue2rgb_seg4 b r (t - 1/3 + 1) (by linarith) (by linarith)]

/-- Hue recovery, case max `= r`, `g < b` (so min `= g`). -/
lemma hue_caseR2 (r g b : ℚ) (hgb : g < b) (hbr : b ≤ r) :
    hue2rgb g r (((g - b)/(r - g) + 6)/6 + 1/3) = r ∧
    hue2rgb g r (((g - b)/(r - g) + 6)/6) = g ∧
    hue2rgb g r (((g - b)/(r - g) + 6)/6 - 1/3) = b := by
  have hd : 0 < r - g := by linarith
  set t := ((g - b)/(r - g) + 6)/6 with htdef
  have hb1 : (b - g)/(r - g) ≤ 1 := (div_le_one hd).mpr (by linarith)
  have hb0 : 0 < (b - g)/(r - g) := div_pos (by linarith) hd
  have htval : t = 1 - (b - g)/(r - g)/6 := by
    rw [htdef]
    field_simp
    ring
  have htlo : 5/6 ≤ t := by rw [htval]; linarith
  have hthi : t < 1 := by rw [htval]; linarith
  refine ⟨?_, ?_, ?_⟩
  · rw [hue2rgb_wrap_pos g r (t + 1/3) (by linarith) (by linarith),
      hue2rgb_seg2 g r (t + 1/3 - 1) (by linarith) (by linarith)]
  · rw [hue2rgb_seg4 g r t (by linarith) (by linarith)]
  · rw [hue2rgb_seg3 g r (t - 1/3) (by linarith) (by linarith), htval]
    field_simp
    ring

/-- Hue recovery, case max `= g`, `r ≤ b` (so min `= r`). -/
lemma hue_caseG1 (r g b : ℚ) (hrb : r ≤ b) (hbg : b ≤ g) (hrg : r < g) :
    hue2rgb r g (((b - r)/(g - r) + 2)/6 + 1/3) = r ∧
    hue2rgb r g (((b - r)/(g - r) + 2)/6) = g ∧
    hue2rgb r g (((b - r)/(g - r) + 2)/6 - 1/3) = b := by
  have hd : 0 < g - r := by linarith
  set t := ((b - r)/(g - r) + 2)/6 with htdef
  have hb0 : 0 ≤ (b - r)/(g - r) := div_nonneg (by linarith) hd.le
  have htlo : 1/3 ≤ t := by rw [htdef]; linarith
  rcases eq_or_lt_of_le hbg with hbg2 | hbg2
  · have ht : t = 1/2 := by
      rw [htdef, hbg2]
      rw [show (g - r)/(g - r) = 1 from div_self hd.ne.symm]
      norm_num
    rw [ht]
    refine ⟨?_, ?_, ?_⟩
    · rw [hue2rgb_seg4 r g (1/2 + 1/3) (by norm_num) (by norm_num)]
    · rw [hue2rgb_seg3 r g (1/2) (by norm_num) (by norm_num)]
      linarith
    · rw [hue2rgb_seg2 r g (1/2 - 1/3) (by norm_num) (by norm_num)]
      exact hbg2.symm
  · have hthi : t < 1/2 := by
      rw [htdef]
      have : (b - r)/(g - r) < 1 := (div_lt_one hd).mpr (by linarith)
      linarith
    refine ⟨?_, ?_, ?_⟩
    · rw [hue2rgb_seg4 r g (t + 1/3) (by linarith) (by linarith)]
    · rw [hue2rgb_seg2 r g t (by linarith) hthi]
    · rw [hue2rgb_seg1 r g (t - 1/3) (by linarith) (by linarith), htdef]
      field_simp
      ring

/-- Hue recovery, case max `= g`, `b < r` (so min `= b`). -/
lemma hue_caseG2 (r g b : ℚ) (hbr : b < r) (hrg : r < g) :
    hue2rgb b g (((b - r)/(g - b) + 2)/6 + 1/3) = r ∧
    hue2rgb b g (((b - r)/(g - b) + 2)/6) = g ∧
    hue2rgb b g (((b - r)/(g - b) + 2)/6 - 1/3) = b := by
  have hd : 0 < g - b := by linarith
  set t := ((b - r)/(g - b) + 2)/6 with htdef
  have hc1 : (r - b)/(g - b) < 1 := (div_lt_one hd).mpr (by linarith)
  have hc0 : 0 < (r - b)/(g - b) := div_pos (by linarith) hd
  have htval : t = 1/3 - (r - b)/(g - b)/6 := by
    rw [htdef]
    field_simp
    ring
  have htlo : 1/6 < t := by rw [htval]; linarith
  have hthi : t < 1/3 := by rw [htval]; linarith
  refine ⟨?_, ?_, ?_⟩
  · rw [hue2rgb_seg3 b g (t + 1/3) (by linarith) (by linarith), htval]
    field_simp
    ring
  · rw [hue2rgb_seg2 b g t (by linarith) (by linarith)]
  · rw [hue2rgb_wrap_neg b g (t - 1/3) (by linarith) (by linarith),
      hue2rgb_seg4 b g (t - 1/3 + 1) (by linarith) (by linarith)]

/-- Hue recovery, case max `= b`, `g ≤ r` (so min `= g`). -/
lemma hue_caseB1 (r g b : ℚ) (hgr : g ≤ r) (hrb : r < b) :
    hue2rgb g b (((r - g)/(b - g) + 4)/6 + 1/3) = r ∧
    hue2rgb g b (((r - g)/(b - g) + 4)/6) = g ∧
    hue2rgb g b (((r - g)/(b - g) + 4)/6 - 1/3) = b := by
  have hd : 0 < b - g := by linarith
  set t := ((r - g)/(b - g) + 4)/6 with htdef
  have hc0 : 0 ≤ (r - g)/(b - g) := div_nonneg (by linarith) hd.le
  have hc1 : (r - g)/(b - g) < 1 := (div_lt_one hd).mpr (by linarith)
  have htlo : 2/3 ≤ t := by rw [htdef]; linarith
  have hthi : t < 5/6 := by rw [htdef]; linarith
  refine ⟨?_, ?_, ?_⟩
  · rcases eq_or_lt_of_le hgr with hgr2 | hgr2
    · have ht : t = 2/3 := by
        rw [htdef, ← hgr2]
        rw [show (g - g : ℚ) = 0 from by ring, zero_div]
        norm_num
      rw [ht, hue2rgb_seg4 g b (2/3 + 1/3) (by norm_num) (by norm_num)]
      exact hgr2
    · have htgt : 2/3 < t := by
        rw [htdef]
        have : 0 < (r - g)/(b - g) := div_pos (by linarith) hd
        linarith
      rw [hue2rgb_wrap_pos g b (t + 1/3) (by linarith) (by linarith),
        hue2rgb_seg1 g b (t + 1/3 - 1) (by linarith) (by linarith), htdef]
      field_simp
      ring
  · rw [hue2rgb_seg4 g b t htlo (by linarith)]
  · rw [hue2rgb_seg2 g b (t - 1/3) (by linarith) (by linarith)]

/-- Hue recovery, case max `= b`, `r < g` (so min `= r`). -/
lemma hue_caseB2 (r g b : ℚ) (hrg : r < g) (hgb : g < b) :
    hue2rgb r b (((r - g)/(b - r) + 4)/6 + 1/3) = r ∧
    hue2rgb r b (((r - g)/(b - r) + 4)/6) = g ∧
    hue2rgb r b (((r - g)/(b - r) + 4)/6 - 1/3) = b := by
  have hd : 0 < b - r := by linarith
  set t := ((r - g)/(b - r) + 4)/6 with htdef
  have hc1 : (g - r)/(b - r) < 1 := (div_lt_one hd).mpr (by linarith)
  have hc0 : 0 < (g - r)/(b - r) := div_pos (by linarith) hd
  have htval : t = 2/3 - (g - r)/(b - r)/6 := by
    rw [htdef]
    field_simp
    ring
  have htlo : 1/2 < t := by rw [htval]; linarith
  have hthi : t < 2/3 := by rw [htval]; linarith
  refine ⟨?_, ?_, ?_⟩
  · rw [hue2rgb_seg4 r b (t + 1/3) (by linarith) (by linarith)]
  · rw [hue2rgb_seg3 r b t (by linarith) hthi, htval]
    field_simp
    ring
  · rw [hue2rgb_seg2 r b (t - 1/3) (by linarith) (by linarith)]

/-- The RGB→HSL→RGB round trip of `adjustColor` is exact on `[0,1]`
channels. -/
lemma rgbToHsl_hslToRgb (r g b : ℚ) (hr0 : 0 ≤ r) (hr1 : r ≤ 1)
    (hg0 : 0 ≤ g) (hg1 : g ≤ 1) (hb0 : 0 ≤ b) (hb1 : b ≤ 1) :
    hslToRgb (rgbToHsl r g b).1 (rgbToHsl r g b).2.1 (rgbToHsl r g b).2.2
      = (r, g, b) := by
  have hrM : r ≤ max r (max g b) := le_max_left _ _
  have hgM : g ≤ max r (max g b) := (le_max_left g b).trans (le_max_right _ _)
  have hbM : b ≤ max r (max g b) := (le_max_right g b).trans (le_max_right _ _)
  have hmr : min r (min g b) ≤ r := min_le_left _ _
  have hmg : min r (min g b) ≤ g := (min_le_right r _).trans (min_le_left g b)
  have hmb : min r (min g b) ≤ b := (min_le_right r _).trans (min_le_right g b)
  by_cases hMm : max r (max g b) = min r (min g b)
  · have hrg : r = g := by linarith
    have hrb : r = b := by linarith
    subst hrg
    subst hrb
    have hconv : rgbToHsl r r r = (0, 0, r) := by
      unfold rgbToHsl
      dsimp only
      rw [max_self, max_self, min_self, min_self, if_pos rfl,
        show (r + r)/2 = r from by ring]
    rw [hconv]
    show hslToRgb 0 0 r = (r, r, r)
    unfold hslToRgb
    dsimp only
    rw [if_pos rfl]
  · have hmM : min r (min g b) < max r (max g b) :=
      lt_of_le_of_ne (hmr.trans hrM) (fun h => hMm h.symm)
    have hm0 : 0 ≤ min r (min g b) := le_min hr0 (le_min hg0 hb0)
    have hM1 : max r (max g b) ≤ 1 := max_le hr1 (max_le hg1 hb1)
    have hconv : rgbToHsl r g b =
        ((if max r (max g b) = r then
            (g - b)/(max r (max g b) - min r (min g b)) +
              (if g < b then 6 else 0)
          else if max r (max g b) = g then
            (b - r)/(max r (max g b) - min r (min g b)) + 2
          else (r - g)/(max r (max g b) - min r (min g b)) + 4) / 6,
         if (max r (max g b) + min r (min g b))/2 > 1/2 then
            (max r (max g b) - min r (min g b)) /
              (2 - max r (max g b) - min r (min g b))
          else (max r (max g b) - min r (min g b)) /
            (max r (max g b) + min r (min g b)),
         (max r (max g b) + min r (min g b))/2) := by
      unfold rgbToHsl
      dsimp only
      rw [if_neg hMm]
    rw [hconv]
    rw [hslToRgb_chromatic _ _ _ hm0 hmM hM1]
    by_cases hMr : max r (max g b) = r
    · rw [hMr] at hgM hbM ⊢
      by_cases hgb : g < b
      · have hminv : min r (min g b) = g := by
          rw [min_eq_left (le_of_lt hgb), min_eq_right hgM]
        rw [hminv, if_pos rfl, if_pos hgb]
        obtain ⟨e1, e2, e3⟩ := hue_caseR2 r g b hgb hbM
        rw [e1, e2, e3]
      · have hbg : b ≤ g := not_lt.mp hgb
        have hminv : min r (min g b) = b := by
          rw [min_eq_right hbg, min_eq_right hbM]
        by_cases hbr : b < r
        · rw [hminv, if_pos rfl, if_neg hgb, add_zero]
          obtain ⟨e1, e2, e3⟩ := hue_caseR1 r g b hbg hgM hbr
          rw [e1, e2, e3]
        · exfalso
          have : b = r := le_antisymm hbM (not_lt.mp hbr)
          have : min r (min g b) = b := hminv
          rw [hMr, hminv] at hmM
          linarith [le_antisymm hbM (not_lt.mp hbr), hbg, hgM]
    · have hrMlt : r < max r (max g b) := lt_of_le_of_ne hrM (fun h => hMr h.symm)
      by_cases hMg : max r (max g b) = g
      · rw [hMg] at hrMlt hbM ⊢
        by_cases hrb : r ≤ b
        · have hminv : min r (min g b) = r := by
            rw [min_eq_left (le_min (le_of_lt hrMlt) hrb)]
          rw [hminv, if_neg hrMlt.ne.symm, if_pos rfl]
          obtain ⟨e1, e2, e3⟩ := hue_caseG1 r g b hrb hbM hrMlt
          rw [e1, e2, e3]
        · have hbr : b < r := not_le.mp hrb
          have hminv : min r (min g b) = b := by
            rw [min_eq_right hbM, min_eq_right (le_of_lt hbr)]
          rw [hminv, if_neg hrMlt.ne.symm, if_pos rfl]
          obtain ⟨e1, e2, e3⟩ := hue_caseG2 r g b hbr hrMlt
          rw [e1, e2, e3]
      · have hMb : max r (max g b) = b := by
          rcases max_choice r (max g b) with h | h
          · exact absurd h hMr
          · rcases max_choice g b with h2 | h2
            · exact absurd (h.trans h2) hMg
            · rw [h, h2]
        have hgMlt : g < max r (max g b) := lt_of_le_of_ne hgM (fun h => hMg h.symm)
        rw [hMb] at hrMlt hgMlt ⊢
        by_cases hgr : g ≤ r
        · have hminv : min r (min g b) = g := by
            rw [min_eq_left (le_of_lt hgMlt), min_eq_right hgr]
          rw [hminv, if_neg hrMlt.ne.symm, if_neg hgMlt.ne.symm]
          obtain ⟨e1, e2, e3⟩ := hue_caseB1 r g b hgr hrMlt
          rw [e1, e2, e3]
        · have hrg : r < g := not_le.mp hgr
          have hminv : min r (min g b) = r := by
            rw [min_eq_left (le_min (le_of_lt hrg) (le_of_lt hrMlt))]
          rw [hminv, if_neg hrMlt.ne.symm, if_neg hgMlt.ne.symm]
          obtain ⟨e1, e2, e3⟩ := hue_caseB2 r g b hrg hgMlt
          rw [e1, e2, e3]

/-- The saturation and lightness computed by `rgbToHsl` from `[0,1]` channels
lie in `[0,1]`, so the zero-delta clamp of `adjustColor` is the identity. -/
lemma rgbToHsl_sl_mem (r g b : ℚ) (hr0 : 0 ≤ r) (hr1 : r ≤ 1)
    (hg0 : 0 ≤ g) (hg1 : g ≤ 1) (hb0 : 0 ≤ b) (hb1 : b ≤ 1) :
    0 ≤ (rgbToHsl r g b).2.1 ∧ (rgbToHsl r g b).2.1 ≤ 1 ∧
    0 ≤ (rgbToHsl r g b).2.2 ∧ (rgbToHsl r g b).2.2 ≤ 1 := by
  have hm0 : 0 ≤ min r (min g b) := le_min hr0 (le_min hg0 hb0)
  have hM1 : max r (max g b) ≤ 1 := max_le hr1 (max_le hg1 hb1)
  have hmM : min r (min g b) ≤ max r (max g b) :=
    (min_le_left r _).trans (le_max_left r _)
  unfold rgbToHsl
  dsimp only
  by_cases hMm : max r (max g b) = min r (min g b)
  · rw [if_pos hMm]
    dsimp only
    refine ⟨le_refl 0, by norm_num, by positivity, by linarith⟩
  · rw [if_neg hMm]
    dsimp only
    have hlt : min r (min g b) < max r (max g b) :=
      lt_of_le_of_ne hmM (fun h => hMm h.symm)
    refine ⟨?_, ?_, by positivity, by linarith⟩
    · split_ifs with hcond
      · exact div_nonneg (by linarith) (by linarith)
      · exact div_nonneg (by linarith) (by linarith)
    · split_ifs with hcond
      · rw [div_le_one (by linarith)]
        linarith
      · rw [div_le_one (by linarith)]
        linarith

lemma jsRound_natCast (n : ℕ) : jsRound ((n : ℚ)) = (n : ℤ) := by
  unfold jsRound
  rw [Int.floor_eq_iff]
  constructor
  · push_cast
    linarith
  · push_cast
    linarith

/-- C7: `adjustColor` with zero deltas is an identity adjustment: on any
parseable `rgb(r, g, b)` input the RGB→HSL→RGB round trip returns the same
channels (here proved exactly, hence within the ±1 tolerance the
specification allows). -/
theorem adjustColor_zero_delta_roundtrip (r g b : ℕ)
    (hr : r ≤ 255) (hg : g ≤ 255) (hb : b ≤ 255) :
    adjustColorRgb r g b 0 0 = ((r : ℤ), (g : ℤ), (b : ℤ)) ∧
    |(adjustColorRgb r g b 0 0).1 - (r : ℤ)| ≤ 1 ∧
    |(adjustColorRgb r g b 0 0).2.1 - (g : ℤ)| ≤ 1 ∧
    |(adjustColorRgb r g b 0 0).2.2 - (b : ℤ)| ≤ 1 := by
  have hr255 : ((r : ℚ)) ≤ 255 := by exact_mod_cast hr
  have hg255 : ((g : ℚ)) ≤ 255 := by exact_mod_cast hg
  have hb255 : ((b : ℚ)) ≤ 255 := by exact_mod_cast hb
  have hr0 : 0 ≤ (r : ℚ)/255 := by positivity
  have hr1 : (r : ℚ)/255 ≤ 1 := by rw [div_le_one (by norm_num)]; linarith
  have hg0 : 0 ≤ (g : ℚ)/255 := by positivity
  have hg1 : (g : ℚ)/255 ≤ 1 := by rw [div_le_one (by norm_num)]; linarith
  have hb0 : 0 ≤ (b : ℚ)/255 := by positivity
  have hb1 : (b : ℚ)/255 ≤ 1 := by rw [div_le_one (by norm_num)]; linarith
  obtain ⟨hs0, hs1, hl0, hl1⟩ :=
    rgbToHsl_sl_mem ((r : ℚ)/255) ((g : ℚ)/255) ((b : ℚ)/255)
      hr0 hr1 hg0 hg1 hb0 hb1
  have heq : adjustColorRgb r g b 0 0 = ((r : ℤ), (g : ℤ), (b : ℤ)) := by
    unfold adjustColorRgb adjustHsl
    dsimp only
    rw [show (0 : ℚ)/100 = 0 from by norm_num, add_zero, add_zero,
      clamp01_of_mem _ hs0 hs1, clamp01_of_mem _ hl0 hl1,
      rgbToHsl_hslToRgb _ _ _ hr0 hr1 hg0 hg1 hb0 hb1]
    dsimp only
    rw [div_mul_cancel₀ _ (by norm_num : (255:ℚ) ≠ 0),
      div_mul_cancel₀ _ (by norm_num : (255:ℚ) ≠ 0),
      div_mul_cancel₀ _ (by norm_num : (255:ℚ) ≠ 0),
      jsRound_natCast, jsRound_natCast, jsRound_natCast]
  refine ⟨heq, ?_, ?_, ?_⟩ <;> rw [heq] <;> simp

/-- Witness for C7 at the concrete color `rgb(200, 100, 50)`. -/
theorem adjustColor_zero_delta_roundtrip_witness :
    (200 : ℕ) ≤ 255 ∧ (100 : ℕ) ≤ 255 ∧ (50 : ℕ) ≤ 255 ∧
    adjustColorRgb 200 100 50 0 0 = ((200 : ℤ), (100 : ℤ), (50 : ℤ)) :=
  ⟨by norm_num, by norm_num, by norm_num,
    (adjustColor_zero_delta_roundtrip 200 100 50 (by norm_num) (by norm_num)
      (by norm_num)).1⟩

/-- C6: `adjustColor` clamps saturation and lightness: with deltas
`(1000, 10)` the adjusted lightness and saturation are `≤ 1`, with deltas
`(-1000, -10)` they are `≥ 0`, and in general the adjusted pair is
`(clamp (s + saturationDelta) 0 1, clamp (l + brightnessDelta/100) 0 1)`. -/
theorem adjustColor_clamping (r g b brightnessDelta saturationDelta : ℚ) :
    (adjustHsl (rgbToHsl r g b).2.1 (rgbToHsl r g b).2.2 1000 10).2 ≤ 1 ∧
    (adjustHsl (rgbToHsl r g b).2.1 (rgbToHsl r g b).2.2 1000 10).1 ≤ 1 ∧
    0 ≤ (adjustHsl (rgbToHsl r g b).2.1 (rgbToHsl r g b).2.2 (-1000) (-10)).2 ∧
    0 ≤ (adjustHsl (rgbToHsl r g b).2.1 (rgbToHsl r g b).2.2 (-1000) (-10)).1 ∧
    adjustHsl (rgbToHsl r g b).2.1 (rgbToHsl r g b).2.2
        brightnessDelta saturationDelta
      = (clamp01 ((rgbToHsl r g b).2.1 + saturationDelta),
         clamp01 ((rgbToHsl r g b).2.2 + brightnessDelta / 100)) :=
  ⟨clamp01_le_one _, clamp01_le_one _, clamp01_nonneg _, clamp01_nonneg _, rfl⟩

/-- C8: when color resolution fails, `adjustColor` returns the original
color string unchanged, for all deltas. -/
theorem adjustColor_passthrough (resolve : String → Option (ℕ × ℕ × ℕ))
    (color : String) (brightnessDelta saturationDelta : ℚ)
    (h : resolve color = none) :
    adjustColor resolve color brightnessDelta saturationDelta = color := by
  unfold adjustColor
  rw [h]

/-- Witness for C8 at a concrete unresolvable color. -/
theorem adjustColor_passthrough_witness :
    (fun _ : String => (none : Option (ℕ × ℕ × ℕ))) "no-such-color" = none ∧
    adjustColor (fun _ => none) "no-such-color" 3 4 = "no-such-color" :=
  ⟨rfl, adjustColor_passthrough _ _ 3 4 rfl⟩

/-! ## PathJitterer (`addHandDrawnEffect` in `handDrawnUtils.js`) -/

/-- One jittered sample of `addHandDrawnEffect` (lines 29-30):
`point.x += (Math.random() - 0.5) * jitterAmount` and likewise for `y`. -/
def jitterPoint (p : ℚ × ℚ) (ux uy jitterAmount : ℚ) : ℚ × ℚ :=
  (p.1 + (ux - 1/2) * jitterAmount, p.2 + (uy - 1/2) * jitterAmount)

/-- The sampling loop of `addHandDrawnEffect` (lines 25-33): `numPoints + 1`
samples (loop `i = 0 .. numPoints` inclusive) at arc-length fractions
`i / numPoints`, each perturbed.  `pathAt t` stands for the browser's
`path.getPointAtLength(length * t)`; `ux, uy` are the streams of
`Math.random()` draws. -/
def handDrawnSamples (pathAt : ℚ → ℚ × ℚ) (jitterAmount : ℚ)
    (numPoints : ℕ) (ux uy : ℕ → ℚ) : List (ℚ × ℚ) :=
  (List.range (numPoints + 1)).map fun (i : ℕ) =>
    jitterPoint (pathAt ((i : ℚ) / (numPoints : ℚ))) (ux i) (uy i)
      jitterAmount

/-- The three cubic control points that d3-shape's basis curve emits per
`bezierCurveTo` call: `((2a+b)/3, (a+2b)/3, (a+4b+c)/6)`. -/
def bez (a b c : ℚ × ℚ) : List (ℚ × ℚ) :=
  [((2 * a.1 + b.1) / 3, (2 * a.2 + b.2) / 3),
   ((a.1 + 2 * b.1) / 3, (a.2 + 2 * b.2) / 3),
   ((a.1 + 4 * b.1 + c.1) / 6, (a.2 + 4 * b.2 + c.2) / 6)]

/-- Tail of the d3 `curveBasis` emission, with `a, b` the two retained
previous points (`_x0/_y0`, `_x1/_y1`): each further point emits one cubic
segment, and `lineEnd` emits the closing cubic toward `b` followed by
`lineTo(b)`. -/
def basisRest : (ℚ × ℚ) → (ℚ × ℚ) → List (ℚ × ℚ) → List (ℚ × ℚ)
  | a, b, [] => bez a b b ++ [b]
  | a, b, c :: rest => bez a b c ++ basisRest b c rest

/-- Every point (move/line targets and cubic control points, in emission
order) of the path `d3.line().curve(d3.curveBasis)` builds from a point
list: `moveTo p₀`, `lineTo (5p₀+p₁)/6`, then the cubic segments. -/
def basisPoints : List (ℚ × ℚ) → List (ℚ × ℚ)
  | [] => []
  | [p] => [p]
  | [p, q] => [p, q]
  | p :: q :: c :: rest =>
    p :: ((5 * p.1 + q.1) / 6, (5 * p.2 + q.2) / 6) ::
      (bez p q c ++ basisRest q c rest)

/-- `addHandDrawnEffect` (lines 13-45): jittered samples re-fit through the
`d3.curveBasis` smoothing curve. -/
def addHandDrawnEffect (pathAt : ℚ → ℚ × ℚ) (jitterAmount : ℚ)
    (numPoints : ℕ) (ux uy : ℕ → ℚ) : List (ℚ × ℚ) :=
  basisPoints (handDrawnSamples pathAt jitterAmount numPoints ux uy)

/-- The straight horizontal line path from `(0,0)` to `(100,0)`, evaluated at
an arc-length fraction (the browser's `getPointAtLength(length * t)` for this
path). -/
def hLine100 (t : ℚ) : ℚ × ℚ := (100 * t, 0)

/-- C2: the sampling of `addHandDrawnEffect` with sample parameter `n` uses
exactly `n + 1` samples, the `i`-th taken at arc-length fraction `i/n`,
regardless of the jitter amount. -/
theorem handDrawnSamples_count (pathAt : ℚ → ℚ × ℚ) (j : ℚ) (n : ℕ)
    (ux uy : ℕ → ℚ) (hn : 0 < n) :
    (handDrawnSamples pathAt j n ux uy).length = n + 1 ∧
    ∀ i : ℕ, i < n + 1 →
      (handDrawnSamples pathAt j n ux uy)[i]? =
        some (jitterPoint (pathAt ((i : ℚ) / (n : ℚ))) (ux i) (uy i) j) := by
  constructor
  · simp [handDrawnSamples]
  · intro i hi
    simp [handDrawnSamples, List.getElem?_map, List.getElem?_range hi]

/-- Witness for C2 at `n = 2` on the horizontal line. -/
theorem handDrawnSamples_count_witness :
    0 < 2 ∧
    (handDrawnSamples hLine100 7 2 (fun _ => 1/2) (fun _ => 1/2)).length
      = 2 + 1 :=
  ⟨by norm_num,
    (handDrawnSamples_count hLine100 7 2 (fun _ => 1/2) (fun _ => 1/2)
      (by norm_num)).1⟩

/-- Axis-aligned bounding box predicate used to track the basis curve's
convex-combination outputs. -/
def inRect (xlo xhi ylo yhi : ℚ) (p : ℚ × ℚ) : Prop :=
  xlo ≤ p.1 ∧ p.1 ≤ xhi ∧ ylo ≤ p.2 ∧ p.2 ≤ yhi

lemma bez_inRect (xlo xhi ylo yhi : ℚ) (a b c : ℚ × ℚ)
    (ha : inRect xlo xhi ylo yhi a) (hb : inRect xlo xhi ylo yhi b)
    (hc : inRect xlo xhi ylo yhi c) :
    ∀ p ∈ bez a b c, inRect xlo xhi ylo yhi p := by
  obtain ⟨ha1, ha2, ha3, ha4⟩ := ha
  obtain ⟨hb1, hb2, hb3, hb4⟩ := hb
  obtain ⟨hc1, hc2, hc3, hc4⟩ := hc
  intro p hp
  simp only [bez, List.mem_cons, List.not_mem_nil, or_false] at hp
  rcases hp with h | h | h <;> subst h <;>
    exact ⟨by dsimp only; linarith, by dsimp only; linarith,
      by dsimp only; linarith, by dsimp only; linarith⟩

lemma basisRest_inRect (xlo xhi ylo yhi : ℚ) (a b : ℚ × ℚ)
    (l : List (ℚ × ℚ)) (ha : inRect xlo xhi ylo yhi a)
    (hb : inRect xlo xhi ylo yhi b)
    (hl : ∀ p ∈ l, inRect xlo xhi ylo yhi p) :
    ∀ p ∈ basisRest a b l, inRect xlo xhi ylo yhi p := by
  induction l generalizing a b with
  | nil =>
    intro p hp
    simp only [basisRest, List.mem_append, List.mem_cons, List.not_mem_nil,
      or_false] at hp
    rcases hp with h | h
    · exact bez_inRect _ _ _ _ a b b ha hb hb p h
    · exact h ▸ hb
  | cons c rest ih =>
    intro p hp
    simp only [basisRest, List.mem_append] at hp
    have hc : inRect xlo xhi ylo yhi c := hl c (by simp)
    rcases hp with h | h
    · exact bez_inRect _ _ _ _ a b c ha hb hc p h
    · exact ih b c hb hc (fun q hq => hl q (by simp [hq])) p h

lemma basisPoints_inRect (xlo xhi ylo yhi : ℚ) (ps : List (ℚ × ℚ))
    (h : ∀ p ∈ ps, inRect xlo xhi ylo yhi p) :
    ∀ p ∈ basisPoints ps, inRect xlo xhi ylo yhi p := by
  match ps with
  | [] => intro p hp; simp [basisPoints] at hp
  | [p0] =>
    intro p hp
    simp only [basisPoints, List.mem_cons, List.not_mem_nil, or_false] at hp
    exact hp ▸ h p0 (by simp)
  | [p0, q0] =>
    intro p hp
    simp only [basisPoints, List.mem_cons, List.not_mem_nil, or_false] at hp
    rcases hp with h1 | h1
    · exact h1 ▸ h p0 (by simp)
    · exact h1 ▸ h q0 (by simp)
  | p0 :: q0 :: c0 :: rest =>
    intro p hp
    have hp0 : inRect xlo xhi ylo yhi p0 := h p0 (by simp)
    have hq0 : inRect xlo xhi ylo yhi q0 := h q0 (by simp)
    have hc0 : inRect xlo xhi ylo yhi c0 := h c0 (by simp)
    simp only [basisPoints, List.mem_cons, List.mem_append] at hp
    rcases hp with h1 | h1 | h1 | h1
    · exact h1 ▸ hp0
    · subst h1
      obtain ⟨a1, a2, a3, a4⟩ := hp0
      obtain ⟨b1, b2, b3, b4⟩ := hq0
      exact ⟨by dsimp only; linarith, by dsimp only; linarith,
        by dsimp only; linarith, by dsimp only; linarith⟩
    · exact bez_inRect _ _ _ _ p0 q0 c0 hp0 hq0 hc0 p h1
    · exact basisRest_inRect _ _ _ _ q0 c0 rest hq0 hc0
        (fun q hq => h q (by simp [hq])) p h1

lemma basisPoints_head? (ps : List (ℚ × ℚ)) :
    (basisPoints ps).head? = ps.head? := by
  match ps with
  | [] => rfl
  | [p0] => rfl
  | [p0, q0] => rfl
  | p0 :: q0 :: c0 :: rest => rfl

lemma basisRest_ne_nil (a b : ℚ × ℚ) (l : List (ℚ × ℚ)) :
    basisRest a b l ≠ [] := by
  cases l <;> simp [basisRest, bez]

lemma basisRest_getLast? (a b : ℚ × ℚ) (l : List (ℚ × ℚ)) :
    (basisRest a b l).getLast? = (b :: l).getLast? := by
  induction l generalizing a b with
  | nil =>
    show (bez a b b ++ [b]).getLast? = _
    rw [List.getLast?_append_of_ne_nil _ (by simp)]
  | cons c rest ih =>
    show (bez a b c ++ basisRest b c rest).getLast? = _
    rw [List.getLast?_append_of_ne_nil _ (basisRest_ne_nil b c rest), ih,
      List.getLast?_cons_cons]

lemma basisPoints_getLast? (ps : List (ℚ × ℚ)) :
    (basisPoints ps).getLast? = ps.getLast? := by
  match ps with
  | [] => rfl
  | [p0] => rfl
  | [p0, q0] => rfl
  | p0 :: q0 :: c0 :: rest =>
    show (p0 :: _ :: (bez p0 q0 c0 ++ basisRest q0 c0 rest)).getLast? = _
    rw [List.getLast?_cons_cons, ← List.cons_append,
      List.getLast?_append_of_ne_nil _ (basisRest_ne_nil q0 c0 rest),
      basisRest_getLast?, List.getLast?_cons_cons, List.getLast?_cons_cons]

lemma handDrawnSamples_hline_inRect (n : ℕ) (ux uy : ℕ → ℚ) (hn : 1 ≤ n)
    (hux : ∀ i, 0 ≤ ux i ∧ ux i < 1) (huy : ∀ i, 0 ≤ uy i ∧ uy i < 1) :
    ∀ p ∈ handDrawnSamples hLine100 2 n ux uy, inRect (-1) 101 (-1) 1 p := by
  intro p hp
  simp only [handDrawnSamples, List.mem_map, List.mem_range] at hp
  obtain ⟨i, hi, rfl⟩ := hp
  have hi2 : (i : ℚ) ≤ (n : ℚ) := by exact_mod_cast Nat.lt_succ_iff.mp hi
  have hn2 : (0 : ℚ) < (n : ℚ) := by exact_mod_cast hn
  have ht0 : 0 ≤ (i : ℚ) / (n : ℚ) := by positivity
  have ht1 : (i : ℚ) / (n : ℚ) ≤ 1 := by rw [div_le_one hn2]; exact hi2
  obtain ⟨hx0, hx1⟩ := hux i
  obtain ⟨hy0, hy1⟩ := huy i
  unfold jitterPoint hLine100 inRect
  dsimp only
  exact ⟨by linarith, by linarith, by linarith, by linarith⟩

/-- C1: jittering the straight horizontal line from `(0,0)` to `(100,0)` with
`jitterAmount = 2`: every perturbed sample has `y ∈ [-1,1]`, every point of
the smoothed output path has `y ∈ [-1,1]` (and `x ∈ [-1,101]`), the output
starts at `x ∈ [-1,1]` and ends at `x ∈ [99,101]` (so it spans `x` from
approximately `0` to approximately `100`). -/
theorem addHandDrawnEffect_hline (n : ℕ) (ux uy : ℕ → ℚ) (hn : 1 ≤ n)
    (hux : ∀ i, 0 ≤ ux i ∧ ux i < 1) (huy : ∀ i, 0 ≤ uy i ∧ uy i < 1) :
    (∀ p ∈ handDrawnSamples hLine100 2 n ux uy, -1 ≤ p.2 ∧ p.2 ≤ 1) ∧
    (∀ p ∈ addHandDrawnEffect hLine100 2 n ux uy,
      -1 ≤ p.2 ∧ p.2 ≤ 1 ∧ -1 ≤ p.1 ∧ p.1 ≤ 101) ∧
    (∃ p0, (addHandDrawnEffect hLine100 2 n ux uy).head? = some p0 ∧
      -1 ≤ p0.1 ∧ p0.1 ≤ 1) ∧
    (∃ p1, (addHandDrawnEffect hLine100 2 n ux uy).getLast? = some p1 ∧
      99 ≤ p1.1 ∧ p1.1 ≤ 101) := by
  have hrect := handDrawnSamples_hline_inRect n ux uy hn hux huy
  have hn0 : (n : ℚ) ≠ 0 := Nat.cast_ne_zero.mpr (by omega)
  refine ⟨?_, ?_, ?_, ?_⟩
  · intro p hp
    obtain ⟨_, _, h3, h4⟩ := hrect p hp
    exact ⟨h3, h4⟩
  · intro p hp
    obtain ⟨h1, h2, h3, h4⟩ :=
      basisPoints_inRect (-1) 101 (-1) 1 _ hrect p hp
    exact ⟨h3, h4, h1, h2⟩
  · rw [addHandDrawnEffect, basisPoints_head?]
    have hh : (handDrawnSamples hLine100 2 n ux uy).head? =
        some (jitterPoint (hLine100 (((0:ℕ) : ℚ) / (n : ℚ))) (ux 0) (uy 0)
          2) := by
      unfold handDrawnSamples
      rw [List.range_succ_eq_map, List.map_cons]
      rfl
    rw [hh]
    obtain ⟨hx0, hx1⟩ := hux 0
    refine ⟨_, rfl, ?_, ?_⟩ <;>
      · unfold jitterPoint hLine100
        dsimp only
        rw [Nat.cast_zero, zero_div, mul_zero]
        linarith
  · rw [addHandDrawnEffect, basisPoints_getLast?]
    have hh : (handDrawnSamples hLine100 2 n ux uy).getLast? =
        some (jitterPoint (hLine100 ((n : ℚ) / (n : ℚ))) (ux n) (uy n)
          2) := by
      unfold handDrawnSamples
      rw [List.range_succ, List.map_append,
        List.getLast?_append_of_ne_nil _ (by simp)]
      rfl
    rw [hh]
    obtain ⟨hx0, hx1⟩ := hux n
    refine ⟨_, rfl, ?_, ?_⟩ <;>
      · unfold jitterPoint hLine100
        dsimp only
        rw [div_self hn0, mul_one]
        linarith

/-- Witness for C1 at `n = 2` with the constant random stream `1/2`. -/
theorem addHandDrawnEffect_hline_witness :
    1 ≤ 2 ∧ (0 ≤ (1:ℚ)/2 ∧ (1:ℚ)/2 < 1) ∧
    ∃ p1, (addHandDrawnEffect hLine100 2 2 (fun _ => 1/2)
        (fun _ => 1/2)).getLast? = some p1 ∧ 99 ≤ p1.1 ∧ p1.1 ≤ 101 :=
  ⟨by norm_num, ⟨by norm_num, by norm_num⟩,
    (addHandDrawnEffect_hline 2 (fun _ => 1/2) (fun _ => 1/2) (by norm_num)
      (fun i => ⟨by norm_num, by norm_num⟩)
      (fun i => ⟨by norm_num, by norm_num⟩)).2.2.2⟩

/-! ## ScribbleFillGenerator (`scribbleFills.js`)

SVG elements appended to a pattern are modelled as values of `PatEl`;
attribute values derived from `Math.random()` draws take them from
per-element streams `u i k` (`i` = element index, `k` = draw index within
the element, in source order). -/

/-- One SVG child element of a generated fill pattern: the translucent
background rect, a watercolor blob path, or a wobbly stroke path (recorded
by its straight-segment endpoints before the wobble refinement). -/
inductive PatEl where
  | rectEl (w h : ℚ) (fill : String) (fillOpacity : ℚ)
  | blobEl (cx cy rx ry colorShift satShift fillOpacity : ℚ)
  | strokeEl (sp ep : ℚ × ℚ) (colorShift strokeWidth strokeOpacity : ℚ)
  deriving DecidableEq

def isRectEl : PatEl → Bool
  | .rectEl .. => true
  | _ => false

def isBlobEl : PatEl → Bool
  | .blobEl .. => true
  | _ => false

def isStrokeEl : PatEl → Bool
  | .strokeEl .. => true
  | _ => false

/-- Start-point `y` of a stroke element (`0` on other elements); used to
state the perpendicular spacing of horizontal strokes. -/
def strokeStartY : PatEl → ℚ
  | .strokeEl sp _ _ _ _ => sp.2
  | _ => 0

/-- One blob of `addWatercolorTexture` (lines 189-207).  Draw order per
blob: color shift, saturation shift, `cx`, `cy`, `rx`, `ry`, fill
opacity. -/
def scribbleBlob (width height : ℚ) (u : ℕ → ℕ → ℚ) (i : ℕ) : PatEl :=
  PatEl.blobEl (u i 2 * width) (u i 3 * height) (15 + u i 4 * 30)
    (15 + u i 5 * 30) (-20 + u i 0 * 40) (1/10 + u i 1 * (2/10))
    (3/20 + u i 6 * (2/10))

/-- `addWatercolorTexture` (lines 188-208): `numBlobs` random blob paths. -/
def addWatercolorTexture (width height : ℚ) (u : ℕ → ℕ → ℚ)
    (numBlobs : ℕ) : List PatEl :=
  (List.range numBlobs).map (scribbleBlob width height u)

/-- Stroke `i` of `createDirectionalScribblePattern` (lines 55-80): the
straight segment spans the tile diagonal through the center, offset
perpendicular to the direction by the stroke's spacing slot. -/
def scribbleStroke (density : ℕ) (width height c s diag : ℚ)
    (v : ℕ → ℕ → ℚ) (i : ℕ) : PatEl :=
  let offset := (i : ℚ) * (height / ((density : ℚ) + 1)) - height / 2
  PatEl.strokeEl
    (width/2 - c * diag/2 + s * offset, height/2 - s * diag/2 - c * offset)
    (width/2 + c * diag/2 + s * offset, height/2 + s * diag/2 - c * offset)
    (-15 + v i 2 * 30) (1 + v i 1 * 2) (1/2 + v i 0 * (3/10))

/-- `createDirectionalScribblePattern` (lines 20-83).  `randId` stands for
the `scribble-` random suffix id used when `id` is falsy; `c, s` are the
host's `Math.cos`/`Math.sin` of the direction (exact rationals at
direction 0); `diag` is the host's `Math.sqrt(width² + height²)`.  Per
stroke `i` the draws are opacity (`v i 0`), width (`v i 1`) and color shift
(`v i 2`).  Returns the `url(#...)` fill reference and the pattern's
element list. -/
def createDirectionalScribblePattern (id randId color : String)
    (density : ℕ) (width height : ℚ) (c s diag : ℚ)
    (u v : ℕ → ℕ → ℚ) : String × List PatEl :=
  let patternId := if id = "" then randId else id
  ("url(#" ++ patternId ++ ")",
    PatEl.rectEl width height color (1/4) ::
      (addWatercolorTexture width height u 4 ++
        (List.range (density + 1)).map
          (scribbleStroke density width height c s diag v)))

lemma filter_map_range_pos (p : PatEl → Bool) (n : ℕ) (g : ℕ → PatEl)
    (h : ∀ i, p (g i) = true) :
    ((List.range n).map g).filter p = (List.range n).map g :=
  List.filter_eq_self.mpr (by
    intro a ha
    obtain ⟨i, _, rfl⟩ := List.mem_map.mp ha
    exact h i)

lemma filter_map_range_neg (p : PatEl → Bool) (n : ℕ) (g : ℕ → PatEl)
    (h : ∀ i, p (g i) = false) :
    ((List.range n).map g).filter p = [] := by
  rw [List.filter_eq_nil_iff]
  intro a ha
  obtain ⟨i, _, rfl⟩ := List.mem_map.mp ha
  simp [h i]

/-- C3: `createDirectionalScribblePattern` with a provided id, `density = 8`,
a `120 × 120` tile and direction `0` (`cos = 1`, `sin = 0`) returns the
reference `url(#<id>)`, and the pattern holds exactly one background rect,
four watercolor blobs, and `density + 1 = 9` stroke paths; consecutive
strokes are horizontal lines whose perpendicular (y) spacing is
`height / (density + 1) = 120/9`. -/
theorem createDirectionalScribblePattern_structure (id randId color : String)
    (diag : ℚ) (u v : ℕ → ℕ → ℚ) (hid : id ≠ "") :
    (createDirectionalScribblePattern id randId color 8 120 120 1 0 diag
        u v).1 = "url(#" ++ id ++ ")" ∧
    ((createDirectionalScribblePattern id randId color 8 120 120 1 0 diag
        u v).2.filter isRectEl).length = 1 ∧
    ((createDirectionalScribblePattern id randId color 8 120 120 1 0 diag
        u v).2.filter isBlobEl).length = 4 ∧
    ((createDirectionalScribblePattern id randId color 8 120 120 1 0 diag
        u v).2.filter isStrokeEl).length = 8 + 1 ∧
    (∀ i : ℕ, i < 8 + 1 →
      (((createDirectionalScribblePattern id randId color 8 120 120 1 0 diag
          u v).2.filter isStrokeEl)[i]?.map strokeStartY)
        = some (120 - (i : ℚ) * (120 / (8 + 1)))) ∧
    (∀ i : ℕ, i < 8 → ∃ y1 y2,
      (((createDirectionalScribblePattern id randId color 8 120 120 1 0 diag
          u v).2.filter isStrokeEl)[i]?.map strokeStartY) = some y1 ∧
      (((createDirectionalScribblePattern id randId color 8 120 120 1 0 diag
          u v).2.filter isStrokeEl)[i + 1]?.map strokeStartY) = some y2 ∧
      y1 - y2 = 120 / (8 + 1)) := by
  have hels : (createDirectionalScribblePattern id randId color 8 120 120 1 0
      diag u v).2 =
      PatEl.rectEl 120 120 color (1/4) ::
        ((List.range 4).map (scribbleBlob 120 120 u) ++
          (List.range (8 + 1)).map (scribbleStroke 8 120 120 1 0 diag v)) :=
    rfl
  have hstr : ((createDirectionalScribblePattern id randId color 8 120 120 1 0
      diag u v).2.filter isStrokeEl) =
      (List.range (8 + 1)).map (scribbleStroke 8 120 120 1 0 diag v) := by
    rw [hels, List.filter_cons_of_neg (by simp [isStrokeEl]),
      List.filter_append,
      filter_map_range_neg isStrokeEl 4 (scribbleBlob 120 120 u)
        (fun i => rfl),
      filter_map_range_pos isStrokeEl (8 + 1)
        (scribbleStroke 8 120 120 1 0 diag v) (fun i => rfl),
      List.nil_append]
  have hy : ∀ i : ℕ, strokeStartY (scribbleStroke 8 120 120 1 0 diag v i)
      = 120 - (i : ℚ) * (120 / (8 + 1)) := by
    intro i
    unfold scribbleStroke strokeStartY
    dsimp only
    push_cast
    ring
  refine ⟨?_, ?_, ?_, ?_, ?_, ?_⟩
  · show ("url(#" ++ (if id = "" then randId else id) ++ ")") = _
    rw [if_neg hid]
  · rw [hels, List.filter_cons_of_pos (by simp [isRectEl]),
      List.filter_append,
      filter_map_range_neg isRectEl 4 (scribbleBlob 120 120 u)
        (fun i => rfl),
      filter_map_range_neg isRectEl (8 + 1)
        (scribbleStroke 8 120 120 1 0 diag v) (fun i => rfl)]
    rfl
  · rw [hels, List.filter_cons_of_neg (by simp [isBlobEl]),
      List.filter_append,
      filter_map_range_pos isBlobEl 4 (scribbleBlob 120 120 u)
        (fun i => rfl),
      filter_map_range_neg isBlobEl (8 + 1)
        (scribbleStroke 8 120 120 1 0 diag v) (fun i => rfl)]
    simp
  · rw [hstr]
    simp
  · intro i hi
    rw [hstr, List.getElem?_map, List.getElem?_range hi]
    show some (strokeStartY (scribbleStroke 8 120 120 1 0 diag v i)) = _
    rw [hy i]
  · intro i hi
    rw [hstr, List.getElem?_map, List.getElem?_range (by omega : i < 8 + 1),
      List.getElem?_map, List.getElem?_range (by omega : i + 1 < 8 + 1)]
    refine ⟨_, _, rfl, rfl, ?_⟩
    rw [hy i, hy (i + 1)]
    push_cast
    ring

/-- Witness for C3 at a concrete id and color. -/
theorem createDirectionalScribblePattern_structure_witness :
    ("pat-0" : String) ≠ "" ∧
    (createDirectionalScribblePattern "pat-0" "r" "red" 8 120 120 1 0 170
        (fun _ _ => 1/2) (fun _ _ => 1/2)).1 = "url(#" ++ "pat-0" ++ ")" :=
  ⟨by decide,
    (createDirectionalScribblePattern_structure "pat-0" "r" "red" 170
      (fun _ _ => 1/2) (fun _ _ => 1/2) (by decide)).1⟩

/-- The fixed direction cycle of `createScribblePatternSet` (line 157). -/
def scribbleDirections : List ℚ := [0, 45, 90, 135, 30, 60, 120, 150]

/-- One generated pattern of a pattern set: the returned fill reference plus
the parameters and elements of the underlying pattern. -/
structure ScribblePattern where
  ref : String
  color : String
  direction : ℚ
  density : ℕ
  els : List PatEl
  deriving DecidableEq

/-- `createScribblePatternSet` (lines 155-176): one directional pattern per
color, direction cycling through `scribbleDirections` by index mod 8, density
`6 + Math.floor(Math.random() * 5)`, fixed `120 × 120` tile, pattern id
`scribble-pattern-<index>`.  `cosDeg`/`sinDeg` are the host's cosine/sine by
degrees, `diag` the host's `Math.sqrt(120² + 120²)`, `ud` the density draws
and `u index`, `v index` the per-pattern element streams. -/
def createScribblePatternSet (colors : List String) (cosDeg sinDeg : ℚ → ℚ)
    (diag : ℚ) (ud : ℕ → ℚ) (u v : ℕ → ℕ → ℕ → ℚ) : List ScribblePattern :=
  colors.mapIdx fun (index : ℕ) (color : String) =>
    let direction := scribbleDirections.getD
      (index % scribbleDirections.length) 0
    let density := 6 + (⌊ud index * 5⌋).toNat
    let pat := createDirectionalScribblePattern
      ("scribble-pattern-" ++ toString index) "" color density 120 120
      (cosDeg direction) (sinDeg direction) diag (u index) (v index)
    ⟨pat.1, color, direction, density, pat.2⟩

lemma scribble_pattern_id_ne_empty (s : String) :
    "scribble-pattern-" ++ s ≠ "" := by
  intro h
  have h2 : ("scribble-pattern-" ++ s).length = 0 := by rw [h]; rfl
  rw [String.length_append] at h2
  have h3 : ("scribble-pattern-" : String).length = 17 := rfl
  omega

/-- C9: `createScribblePatternSet` returns exactly one pattern per input
color, in input order; the `i`-th pattern is referenced
`url(#scribble-pattern-<i>)`, uses direction
`[0,45,90,135,30,60,120,150][i % 8]` and a density in `[6,10]`. -/
theorem createScribblePatternSet_structure (colors : List String)
    (cosDeg sinDeg : ℚ → ℚ) (diag : ℚ) (ud : ℕ → ℚ)
    (u v : ℕ → ℕ → ℕ → ℚ) (hud : ∀ i, 0 ≤ ud i ∧ ud i < 1) :
    (createScribblePatternSet colors cosDeg sinDeg diag ud u v).length
      = colors.length ∧
    ∀ i : ℕ, i < colors.length → ∃ p : ScribblePattern,
      (createScribblePatternSet colors cosDeg sinDeg diag ud u v)[i]?
          = some p ∧
      colors[i]? = some p.color ∧
      p.ref = "url(#" ++ ("scribble-pattern-" ++ toString i) ++ ")" ∧
      p.direction = scribbleDirections.getD (i % 8) 0 ∧
      6 ≤ p.density ∧ p.density ≤ 10 := by
  constructor
  · exact List.length_mapIdx
  · intro i hi
    have hlen : i < (createScribblePatternSet colors cosDeg sinDeg diag ud
        u v).length := by
      unfold createScribblePatternSet
      rw [List.length_mapIdx]
      exact hi
    have hget : (createScribblePatternSet colors cosDeg sinDeg diag ud u v).get
        ⟨i, hlen⟩ = _ := List.get_mapIdx colors _ i hi
    refine ⟨(createScribblePatternSet colors cosDeg sinDeg diag ud u v).get
        ⟨i, hlen⟩, ?_, ?_, ?_, ?_, ?_, ?_⟩
    · rw [List.getElem?_eq_getElem hlen]
      rfl
    · rw [List.getElem?_eq_getElem hi, hget]
      rfl
    · rw [hget]
      show ("url(#" ++ (if ("scribble-pattern-" ++ toString i) = ""
          then "" else "scribble-pattern-" ++ toString i) ++ ")") = _
      rw [if_neg (scribble_pattern_id_ne_empty (toString i))]
    · rw [hget]
      rfl
    · rw [hget]
      show 6 ≤ 6 + (⌊ud i * 5⌋).toNat
      omega
    · rw [hget]
      show 6 + (⌊ud i * 5⌋).toNat ≤ 10
      obtain ⟨h0, h1⟩ := hud i
      have hf0 : (0 : ℤ) ≤ ⌊ud i * 5⌋ := Int.floor_nonneg.mpr (by linarith)
      have hf1 : ⌊ud i * 5⌋ < 5 := Int.floor_lt.mpr (by push_cast; linarith)
      omega

/-- Witness for C9 on a concrete two-color palette. -/
theorem createScribblePatternSet_structure_witness :
    (0 ≤ (1:ℚ)/2 ∧ (1:ℚ)/2 < 1) ∧
    (createScribblePatternSet ["red", "blue"] (fun _ => 1) (fun _ => 0) 170
        (fun _ => 1/2) (fun _ _ _ => 1/2) (fun _ _ _ => 1/2)).length = 2 :=
  ⟨⟨by norm_num, by norm_num⟩,
    (createScribblePatternSet_structure ["red", "blue"] (fun _ => 1)
      (fun _ => 0) 170 (fun _ => 1/2) (fun _ _ _ => 1/2) (fun _ _ _ => 1/2)
      (fun i => ⟨by norm_num, by norm_num⟩)).1⟩

/-- Color shift recorded on a blob element (`0` on other elements). -/
def blobColorShift : PatEl → ℚ
  | .blobEl _ _ _ _ cs _ _ => cs
  | _ => 0

/-- Large-layer blob of `createOilPaintPattern` (lines 238-255).  Draw order:
color shift coin, saturation coin, `cx`, `cy`, `rx`, `ry`, fill opacity.
The color shift is darker (`-20`) with probability `1/2` for a uniform
draw. -/
def oilLargeBlob (u : ℕ → ℕ → ℚ) (i : ℕ) : PatEl :=
  PatEl.blobEl (u i 2 * 120) (u i 3 * 120) (25 + u i 4 * 50)
    (20 + u i 5 * 40) (if u i 0 < 1/2 then -20 else 15)
    (if u i 1 < 3/10 then -(3/20) else 1/10) (1/5 + u i 6 * (3/10))

/-- Medium-layer blob (lines 258-273): highlight with probability `3/10`. -/
def oilMediumBlob (u : ℕ → ℕ → ℚ) (i : ℕ) : PatEl :=
  PatEl.blobEl (u i 1 * 120) (u i 2 * 120) (10 + u i 3 * 30)
    (8 + u i 4 * 25) (if u i 0 < 3/10 then 25 else -15)
    (if u i 0 < 3/10 then 1/10 else -(1/10)) (3/20 + u i 5 * (1/4))

/-- Small-layer blob (lines 276-292): highlight with probability `2/5`. -/
def oilSmallBlob (u : ℕ → ℕ → ℚ) (i : ℕ) : PatEl :=
  PatEl.blobEl (u i 1 * 120) (u i 2 * 120) (4 + u i 3 * 12)
    (3 + u i 4 * 10) (if u i 0 < 2/5 then 35 else -25)
    (if u i 0 < 2/5 then 3/20 else -(1/10))
    (if u i 0 < 2/5 then 1/5 + u i 5 * (3/10) else 1/10 + u i 5 * (1/5))

/-- Base endpoints (`startX`, `startY`, `endX`, `endY`) of oil-paint brush
stroke `i` before its random offsets (lines 302-316): offset
`(i - 2.5) * 20` from the tile center, horizontal when `direction = 0`,
vertical otherwise. -/
def oilStrokeBase (direction : ℚ) (i : ℕ) : ℚ × ℚ × ℚ × ℚ :=
  let offset := ((i : ℚ) - 5/2) * 20
  if direction = 0 then (0, 60 + offset, 120, 60 + offset)
  else (60 + offset, 0, 60 + offset, 120)

/-- Oil-paint brush stroke `i` (lines 300-335): base endpoints plus
`(Math.random() - 0.5) * 15` on each coordinate; draws 4-6 are color shift,
width and opacity. -/
def oilStroke (direction : ℚ) (u : ℕ → ℕ → ℚ) (i : ℕ) : PatEl :=
  let base := oilStrokeBase direction i
  PatEl.strokeEl
    (base.1 + (u i 0 - 1/2) * 15, base.2.1 + (u i 1 - 1/2) * 15)
    (base.2.2.1 + (u i 2 - 1/2) * 15, base.2.2.2 + (u i 3 - 1/2) * 15)
    (-10 + u i 4 * 20) (2 + u i 5 * 4) (1/10 + u i 6 * (2/10))

/-- `createOilPaintPattern` (lines 220-338): fixed `120 × 120` tile, base
rect at opacity `0.4`, three blob layers (6 large, 8 medium, 12 small),
then six brush strokes in a single direction, horizontal (`0`) when
`udir < 1/2` and vertical (`90`) otherwise. -/
def createOilPaintPattern (id randId color : String) (udir : ℚ)
    (ul um usm ustr : ℕ → ℕ → ℚ) : String × List PatEl :=
  let patternId := if id = "" then randId else id
  let direction : ℚ := if udir < 1/2 then 0 else 90
  ("url(#" ++ patternId ++ ")",
    PatEl.rectEl 120 120 color (2/5) ::
      ((List.range 6).map (oilLargeBlob ul) ++
        ((List.range 8).map (oilMediumBlob um) ++
          ((List.range 12).map (oilSmallBlob usm) ++
            (List.range 6).map (oilStroke direction ustr)))))

/-- C4: `createOilPaintPattern` is built on a fixed `120 × 120` tile from
exactly three blob layers of 6, 8 and 12 blobs whose highlight/darker coins
use thresholds `1/2`, `3/10` and `2/5` respectively, followed by exactly six
brush strokes in a single direction chosen horizontal (`0`) at threshold
`1/2` on the direction draw and vertical (`90`) otherwise, with consecutive
base stroke positions evenly spaced `20` apart. -/
theorem createOilPaintPattern_structure (id randId color : String)
    (udir : ℚ) (ul um usm ustr : ℕ → ℕ → ℚ) :
    (createOilPaintPattern id randId color udir ul um usm ustr).2[0]?
      = some (PatEl.rectEl 120 120 color (2/5)) ∧
    ((createOilPaintPattern id randId color udir ul um usm
        ustr).2.filter isBlobEl)
      = (List.range 6).map (oilLargeBlob ul) ++
        ((List.range 8).map (oilMediumBlob um) ++
          (List.range 12).map (oilSmallBlob usm)) ∧
    ((createOilPaintPattern id randId color udir ul um usm
        ustr).2.filter isBlobEl).length = 6 + 8 + 12 ∧
    ((createOilPaintPattern id randId color udir ul um usm
        ustr).2.filter isStrokeEl)
      = (List.range 6).map
          (oilStroke (if udir < 1/2 then 0 else 90) ustr) ∧
    ((createOilPaintPattern id randId color udir ul um usm
        ustr).2.filter isStrokeEl).length = 6 ∧
    (∀ i : ℕ, i < 6 →
      (((List.range 6).map (oilLargeBlob ul))[i]?.map blobColorShift)
        = some (if ul i 0 < 1/2 then -20 else 15)) ∧
    (∀ i : ℕ, i < 8 →
      (((List.range 8).map (oilMediumBlob um))[i]?.map blobColorShift)
        = some (if um i 0 < 3/10 then 25 else -15)) ∧
    (∀ i : ℕ, i < 12 →
      (((List.range 12).map (oilSmallBlob usm))[i]?.map blobColorShift)
        = some (if usm i 0 < 2/5 then 35 else -25)) ∧
    (∀ i : ℕ, i < 5 →
      (oilStrokeBase 0 (i + 1)).2.1 - (oilStrokeBase 0 i).2.1 = 20 ∧
      (oilStrokeBase 90 (i + 1)).1 - (oilStrokeBase 90 i).1 = 20) := by
  have hels : (createOilPaintPattern id randId color udir ul um usm
      ustr).2 =
      PatEl.rectEl 120 120 color (2/5) ::
        ((List.range 6).map (oilLargeBlob ul) ++
          ((List.range 8).map (oilMediumBlob um) ++
            ((List.range 12).map (oilSmallBlob usm) ++
              (List.range 6).map
                (oilStroke (if udir < 1/2 then 0 else 90) ustr)))) := rfl
  have hblob : ((createOilPaintPattern id randId color udir ul um usm
      ustr).2.filter isBlobEl)
      = (List.range 6).map (oilLargeBlob ul) ++
        ((List.range 8).map (oilMediumBlob um) ++
          (List.range 12).map (oilSmallBlob usm)) := by
    rw [hels, List.filter_cons_of_neg (by simp [isBlobEl]),
      List.filter_append, List.filter_append, List.filter_append,
      filter_map_range_pos isBlobEl 6 (oilLargeBlob ul) (fun i => rfl),
      filter_map_range_pos isBlobEl 8 (oilMediumBlob um) (fun i => rfl),
      filter_map_range_pos isBlobEl 12 (oilSmallBlob usm) (fun i => rfl),
      filter_map_range_neg isBlobEl 6
        (oilStroke (if udir < 1/2 then 0 else 90) ustr) (fun i => rfl),
      List.append_nil]
  have hstroke : ((createOilPaintPattern id randId color udir ul um usm
      ustr).2.filter isStrokeEl)
      = (List.range 6).map (oilStroke (if udir < 1/2 then 0 else 90)
          ustr) := by
    rw [hels, List.filter_cons_of_neg (by simp [isStrokeEl]),
      List.filter_append, List.filter_append, List.filter_append,
      filter_map_range_neg isStrokeEl 6 (oilLargeBlob ul) (fun i => rfl),
      filter_map_range_neg isStrokeEl 8 (oilMediumBlob um) (fun i => rfl),
      filter_map_range_neg isStrokeEl 12 (oilSmallBlob usm) (fun i => rfl),
      filter_map_range_pos isStrokeEl 6
        (oilStroke (if udir < 1/2 then 0 else 90) ustr) (fun i => rfl),
      List.nil_append, List.nil_append, List.nil_append]
  refine ⟨rfl, hblob, ?_, hstroke, ?_, ?_, ?_, ?_, ?_⟩
  · rw [hblob]
    simp
  · rw [hstroke]
    simp
  · intro i hi
    rw [List.getElem?_map, List.getElem?_range hi]
    rfl
  · intro i hi
    rw [List.getElem?_map, List.getElem?_range hi]
    rfl
  · intro i hi
    rw [List.getElem?_map, List.getElem?_range hi]
    rfl
  · intro i hi
    unfold oilStrokeBase
    norm_num
    ring

/-- `createOilPaintPatternSet` (lines 408-416): one oil-paint pattern per
color with pattern id `oil-paint-<index>`. -/
def createOilPaintPatternSet (colors : List String) (udir : ℕ → ℚ)
    (ul um usm ustr : ℕ → ℕ → ℕ → ℚ) : List (String × List PatEl) :=
  colors.mapIdx fun (index : ℕ) (color : String) =>
    createOilPaintPattern ("oil-paint-" ++ toString index) "" color
      (udir index) (ul index) (um index) (usm index) (ustr index)

/-- C5 fails on the code: the pattern ids of `createScribblePatternSet` and
`createOilPaintPatternSet` are `scribble-pattern-<index>` resp.
`oil-paint-<index>` with the index restarting at `0` on every call, so two
set calls in one document (two charts) produce colliding identifiers and
hence identical fill references. -/
theorem scribblePatternSet_id_collision :
    (∃ p1 p2 : ScribblePattern,
      (createScribblePatternSet ["red"] (fun _ => 1) (fun _ => 0) 170
          (fun _ => 0) (fun _ _ _ => 0) (fun _ _ _ => 0))[0]? = some p1 ∧
      (createScribblePatternSet ["blue"] (fun _ => 1) (fun _ => 0) 170
          (fun _ => 0) (fun _ _ _ => 0) (fun _ _ _ => 0))[0]? = some p2 ∧
      p1.ref = p2.ref ∧ p1.color ≠ p2.color) ∧
    (∃ q1 q2 : String × List PatEl,
      (createOilPaintPatternSet ["red"] (fun _ => 0) (fun _ _ _ => 0)
          (fun _ _ _ => 0) (fun _ _ _ => 0) (fun _ _ _ => 0))[0]?
        = some q1 ∧
      (createOilPaintPatternSet ["blue"] (fun _ => 0) (fun _ _ _ => 0)
          (fun _ _ _ => 0) (fun _ _ _ => 0) (fun _ _ _ => 0))[0]?
        = some q2 ∧
      q1.1 = q2.1) := by
  refine ⟨⟨_, _, rfl, rfl, ?_, ?_⟩, ⟨_, _, rfl, rfl, ?_⟩⟩
  · rfl
  · decide
  · rfl

/-- Control-point list of `generateScribblePath` (lines 95-145): the start
point, `numPoints - 1` interior points wobbled perpendicular to and along
the segment, then the end point; fitted through the basis curve by the
caller.  `len` stands for the host's `Math.sqrt(dx² + dy²)`; `uw` is the
per-stroke wobble draw, `up i`/`us i` the per-point wobble and speed-wobble
draws. -/
def generateScribblePoints (sp ep : ℚ × ℚ) (len : ℚ) (uw : ℚ)
    (up us : ℕ → ℚ) : List (ℚ × ℚ) :=
  let dx := ep.1 - sp.1
  let dy := ep.2 - sp.2
  let numPoints : ℤ := max 10 (min 30 ⌊len / 10⌋)
  let wobbleAmount := 2 + uw * 2
  let perpX := -dy / len
  let perpY := dx / len
  sp :: (((List.range (numPoints.toNat - 1)).map fun (k : ℕ) =>
    let t := ((k + 1 : ℕ) : ℚ) / (numPoints : ℚ)
    let wobble := (up (k + 1) - 1/2) * wobbleAmount
    let speedWobble := (us (k + 1) - 1/2) * wobbleAmount * (3/10)
    (sp.1 + dx * t + perpX * wobble + dx / len * speedWobble,
     sp.2 + dy * t + perpY * wobble + dy / len * speedWobble)) ++ [ep])

/-- Control-point list of `generateBrushStroke` (lines 350-400): identical
wobble technique with `numPoints = max(8, min(20, ⌊len/15⌋))` and wobble
amount `3 + Math.random() * 3`. -/
def generateBrushStrokePoints (sp ep : ℚ × ℚ) (len : ℚ) (uw : ℚ)
    (up us : ℕ → ℚ) : List (ℚ × ℚ) :=
  let dx := ep.1 - sp.1
  let dy := ep.2 - sp.2
  let numPoints : ℤ := max 8 (min 20 ⌊len / 15⌋)
  let wobbleAmount := 3 + uw * 3
  let perpX := -dy / len
  let perpY := dx / len
  sp :: (((List.range (numPoints.toNat - 1)).map fun (k : ℕ) =>
    let t := ((k + 1 : ℕ) : ℚ) / (numPoints : ℚ)
    let wobble := (up (k + 1) - 1/2) * wobbleAmount
    let speedWobble := (us (k + 1) - 1/2) * wobbleAmount * (3/10)
    (sp.1 + dx * t + perpX * wobble + dx / len * speedWobble,
     sp.2 + dy * t + perpY * wobble + dy / len * speedWobble)) ++ [ep])

/-- C10: for strokes with distinct endpoints (positive segment length), the
control polygons of `generateScribblePath` and `generateBrushStroke` begin
exactly at the given start and end exactly at the given end: the random
wobble touches only interior points. -/
theorem stroke_endpoints_exact (sp ep : ℚ × ℚ) (len : ℚ) (uw : ℚ)
    (up us : ℕ → ℚ) (hlen : 0 < len) :
    (generateScribblePoints sp ep len uw up us).head? = some sp ∧
    (generateScribblePoints sp ep len uw up us).getLast? = some ep ∧
    (generateBrushStrokePoints sp ep len uw up us).head? = some sp ∧
    (generateBrushStrokePoints sp ep len uw up us).getLast? = some ep := by
  refine ⟨rfl, ?_, rfl, ?_⟩
  · show (sp :: (_ ++ [ep])).getLast? = some ep
    rw [← List.cons_append, List.getLast?_append_of_ne_nil _ (by simp)]
    rfl
  · show (sp :: (_ ++ [ep])).getLast? = some ep
    rw [← List.cons_append, List.getLast?_append_of_ne_nil _ (by simp)]
    rfl

/-- Witness for C10 on the horizontal segment from `(0, 10)` to
`(120, 10)`. -/
theorem stroke_endpoints_exact_witness :
    (0 : ℚ) < 120 ∧
    (generateScribblePoints (0, 10) (120, 10) 120 (1/2) (fun _ => 1/2)
        (fun _ => 1/2)).head? = some ((0 : ℚ), (10 : ℚ)) :=
  ⟨by norm_num,
    (stroke_endpoints_exact (0, 10) (120, 10) 120 (1/2) (fun _ => 1/2)
      (fun _ => 1/2) (by norm_num)).1⟩

end HandwrittenGraph
